import Mathlib

/-!
Verification development for the TheTowerAutomation repository.

We shallowly embed the parts of the code that the checked properties are
about:

* `core/clickmap_access.py` — the hierarchical JSON config store
  (`resolve_dot_path`, `dot_path_exists`, `set_dot_path`);
* `core/matcher.py` / `utils/template_matcher.py` — the region matcher
  (`_match_entry`, `get_match`, `match_region`), with the OpenCV calls and
  the filesystem abstracted as oracles;
* `core/state_detector.py` — `detect_state_and_overlays`;
* `core/tap_dispatcher.py` + `core/adb_utils.py` — the tap consumer loop;
* `handlers/mission_demon_mode.py` — `run_demon_mode_strategy` and
  `run_demon_mode_campaign`, with screen capture / detection abstracted as
  time-indexed oracles and sleeps advancing a discrete clock.

Python exceptions are modelled with `Except`/error components; Python's
`None` is the `PyVal.none` value; Python dicts are association lists with
first-occurrence lookup (JSON-loaded dicts have unique keys, and insertion
order is preserved, which the association-list model reflects).
-/

namespace Tower

/-- JSON-representable Python values, as produced by `json.load`:
`None`, booleans, ints, floats, strings, lists and dicts. -/
inductive PyVal where
  | none
  | pybool (b : Bool)
  | int (n : Int)
  | flt (q : Rat)
  | str (s : String)
  | list (xs : List PyVal)
  | dict (entries : List (String × PyVal))

/-- Python truthiness (`bool(v)`) for the values of `PyVal`:
`None`/`False`/`0`/`0.0`/`""`/`[]`/`\x7b\x7d` are falsy, everything else truthy. -/
def PyVal.truthy : PyVal → Bool
  | .none => false
  | .pybool b => b
  | .int n => n != 0
  | .flt q => q != 0
  | .str s => s != ""
  | .list xs => !xs.isEmpty
  | .dict es => !es.isEmpty

/-- Whether the value is Python's `None`. -/
def PyVal.isNone : PyVal → Bool
  | .none => true
  | _ => false

/-- Helper for `splitDot`: walk the characters, cutting at every dot. -/
def splitDotAux : List Char → List Char → List String
  | [], acc => [String.mk acc.reverse]
  | c :: cs, acc =>
    if c = '.' then String.mk acc.reverse :: splitDotAux cs []
    else splitDotAux cs (c :: acc)

/-- Python's `dot_path.split(".")`: split the string at every `.` character,
keeping empty segments; the empty string splits to `[""]`. -/
def splitDot (s : String) : List String := splitDotAux s.data []

/-- Dict lookup `d[k]` / `k in d`: first occurrence wins (JSON dicts have
unique keys, so this coincides with Python dict lookup). -/
def dictLookup (k : String) : List (String × PyVal) → Option PyVal
  | [] => Option.none
  | (k', v) :: rest => if k' = k then some v else dictLookup k rest

/-- Dict assignment `d[k] = v`: overwrite the first occurrence in place,
otherwise append (Python dicts keep the position of an existing key and
append new keys, which this mirrors). -/
def dictSet (k : String) (v : PyVal) : List (String × PyVal) → List (String × PyVal)
  | [] => [(k, v)]
  | (k', v') :: rest => if k' = k then (k, v) :: rest else (k', v') :: dictSet k v rest

/-- Python `k in d` for dict `d`. -/
def hasKey (k : String) (es : List (String × PyVal)) : Bool :=
  (dictLookup k es).isSome

/-- The traversal loop of `clickmap_access.resolve_dot_path` over already
split path segments: descend while the current value is a dict containing
the segment, else return `None` (`PyVal.none`). -/
def resolveParts : List String → PyVal → PyVal
  | [], cur => cur
  | p :: ps, cur =>
    match cur with
    | .dict es =>
      match dictLookup p es with
      | some v => resolveParts ps v
      | Option.none => .none
    | _ => .none

/-- `clickmap_access.resolve_dot_path(dot_path, data=None)`: the root is
`data or _clickmap`, i.e. the global clickmap whenever `data` is absent
or falsy; then descend by the dot-separated segments. -/
def resolve_dot_path (dotPath : String) (data : Option PyVal) (clickmap : PyVal) : PyVal :=
  let cur : PyVal :=
    match data with
    | some d => if d.truthy then d else clickmap
    | Option.none => clickmap
  resolveParts (splitDot dotPath) cur

/-- `clickmap_access.dot_path_exists`: `resolve_dot_path(...) is not None`. -/
def dot_path_exists (dotPath : String) (data : Option PyVal) (clickmap : PyVal) : Bool :=
  !(resolve_dot_path dotPath data clickmap).isNone

/-- Errors raised by `set_dot_path`. -/
inductive SetErr where
  | keyError
  | valueError
  deriving DecidableEq

/-- The loop of `clickmap_access.set_dot_path` over the split segments.
The first component is the raised exception (if any); the second is the
state of the store afterwards — Python mutates `_clickmap` in place, so
intermediate dicts created before an exception persist, which the explicit
state passing reflects.  The `[]` case is unreachable: `str.split` never
returns an empty list. -/
def setPathGo (v : PyVal) (allow : Bool) : List String → List (String × PyVal) →
    Option SetErr × List (String × PyVal)
  | [], cur => (Option.none, cur)
  | [finalKey], cur =>
    if (dictLookup finalKey cur).isSome && !allow then (some .keyError, cur)
    else (Option.none, dictSet finalKey v cur)
  | p :: ps, cur =>
    match dictLookup p cur with
    | Option.none =>
      let r := setPathGo v allow ps []
      (r.1, dictSet p (.dict r.2) cur)
    | some (.dict d) =>
      let r := setPathGo v allow ps d
      (r.1, dictSet p (.dict r.2) cur)
    | some _ => (some .valueError, cur)

/-- `clickmap_access.set_dot_path(dot_path, value, allow_overwrite)` acting
on the global clickmap dict (passed and returned explicitly). -/
def set_dot_path (dotPath : String) (v : PyVal) (allow : Bool)
    (store : List (String × PyVal)) : Option SetErr × List (String × PyVal) :=
  setPathGo v allow (splitDot dotPath) store

/-- Modelled from the spec: "a path resolves to absent if any segment is
missing or a non-container is traversed" — the predicate "some segment of
the path is missing or a non-container is traversed", written from the
spec's words for comparison against `resolveParts`. -/
def pathBroken : List String → PyVal → Bool
  | [], _ => false
  | p :: ps, cur =>
    match cur with
    | .dict es =>
      match dictLookup p es with
      | some v => pathBroken ps v
      | Option.none => true
    | _ => true

/-- Spec-level total lookup: `some v` when every segment traverses a dict
and the stored value is `v`; `Option.none` exactly when `pathBroken`. -/
def lookupPath : List String → PyVal → Option PyVal
  | [], cur => some cur
  | p :: ps, cur =>
    match cur with
    | .dict es =>
      match dictLookup p es with
      | some v => lookupPath ps v
      | Option.none => Option.none
    | _ => Option.none

/-- Writing back the value a key already holds leaves the dict unchanged. -/
theorem dictSet_lookup_self {k : String} {w : PyVal} :
    ∀ {d : List (String × PyVal)}, dictLookup k d = some w → dictSet k w d = d := by
  intro d
  induction d with
  | nil => intro h; simp [dictLookup] at h
  | cons hd tl ih =>
    intro h
    obtain ⟨k', v'⟩ := hd
    by_cases hk : k' = k
    · subst hk
      simp [dictLookup] at h
      simp [dictSet, h]
    · simp [dictLookup, hk] at h
      simp [dictSet, hk, ih h]

/-- Lookup after assignment of the same key returns the assigned value. -/
theorem dictLookup_dictSet_self (k : String) (v : PyVal) :
    ∀ (d : List (String × PyVal)), dictLookup k (dictSet k v d) = some v := by
  intro d
  induction d with
  | nil => simp [dictSet, dictLookup]
  | cons hd tl ih =>
    obtain ⟨k', v'⟩ := hd
    by_cases hk : k' = k
    · subst hk; simp [dictSet, dictLookup]
    · simp [dictSet, hk, dictLookup, ih]

/-- The code's traversal agrees with the spec-level total lookup:
`resolveParts` returns the looked-up value, with `PyVal.none` standing in
for a broken path. -/
theorem resolveParts_eq_lookupPath :
    ∀ (ps : List String) (cur : PyVal),
      resolveParts ps cur = (lookupPath ps cur).getD PyVal.none := by
  intro ps
  induction ps with
  | nil => intro cur; simp [resolveParts, lookupPath]
  | cons p ps ih =>
    intro cur
    cases cur with
    | dict es =>
      cases h : dictLookup p es with
      | none => simp [resolveParts, lookupPath, h]
      | some v => simp [resolveParts, lookupPath, h, ih]
    | none => simp [resolveParts, lookupPath]
    | pybool b => simp [resolveParts, lookupPath]
    | int n => simp [resolveParts, lookupPath]
    | flt q => simp [resolveParts, lookupPath]
    | str s => simp [resolveParts, lookupPath]
    | list xs => simp [resolveParts, lookupPath]

/-- The spec's "segment missing or non-container traversed" predicate is
exactly failure of the spec-level lookup. -/
theorem pathBroken_eq_lookupPath_isNone :
    ∀ (ps : List String) (cur : PyVal),
      pathBroken ps cur = (lookupPath ps cur).isNone := by
  intro ps
  induction ps with
  | nil => intro cur; simp [pathBroken, lookupPath]
  | cons p ps ih =>
    intro cur
    cases cur with
    | dict es =>
      cases h : dictLookup p es with
      | none => simp [pathBroken, lookupPath, h]
      | some v => simp [pathBroken, lookupPath, h, ih]
    | none => simp [pathBroken, lookupPath]
    | pybool b => simp [pathBroken, lookupPath]
    | int n => simp [pathBroken, lookupPath]
    | flt q => simp [pathBroken, lookupPath]
    | str s => simp [pathBroken, lookupPath]
    | list xs => simp [pathBroken, lookupPath]

theorem PyVal.isNone_iff {v : PyVal} : v.isNone = true ↔ v = PyVal.none := by
  cases v <;> simp [PyVal.isNone]

/-- C3, counterexample.  The claim's iff fails on a store holding a JSON
`null` leaf: on the store `\x7b"a": null\x7d` and path `"a"`, every segment is
present and no non-container is traversed (`pathBroken` is false), yet
`resolve_dot_path` returns `None`, because the stored value itself is
Python's `None`. -/
theorem C3_counterexample :
    ¬ (((resolve_dot_path "a" Option.none
          (PyVal.dict [("a", PyVal.none)])).isNone = true)
        ↔ pathBroken (splitDot "a") (PyVal.dict [("a", PyVal.none)]) = true) := by
  intro h
  have h1 : (resolve_dot_path "a" Option.none
      (PyVal.dict [("a", PyVal.none)])).isNone = true := rfl
  have h2 := h.mp h1
  simp [splitDot, splitDotAux, pathBroken, dictLookup] at h2

/-- C3, amended.  For every dot-path and every store, `resolve_dot_path`
returns `None` iff some segment of the path is missing, a non-container is
traversed, or the value stored at the path is itself `None`; and
`dot_path_exists` agrees with `resolve_dot_path` being not `None`. -/
theorem C3_resolve_absent_iff (dotPath : String) (store : PyVal) :
    ((resolve_dot_path dotPath Option.none store).isNone = true
      ↔ (pathBroken (splitDot dotPath) store = true
          ∨ lookupPath (splitDot dotPath) store = some PyVal.none))
    ∧ (dot_path_exists dotPath Option.none store = true
        ↔ ¬ (resolve_dot_path dotPath Option.none store).isNone = true) := by
  constructor
  · rw [show resolve_dot_path dotPath Option.none store
        = resolveParts (splitDot dotPath) store from rfl]
    rw [resolveParts_eq_lookupPath, pathBroken_eq_lookupPath_isNone]
    cases h : lookupPath (splitDot dotPath) store with
    | none => simp [h, PyVal.isNone]
    | some v =>
      simp only [Option.getD_some, Option.isNone_some, Bool.false_eq_true,
        false_or, Option.some.injEq]
      exact ⟨fun hv => PyVal.isNone_iff.mp hv,
             fun hv => PyVal.isNone_iff.mpr hv⟩
  · simp [dot_path_exists]

/-- Key lemma for C4: along a path whose prefix traverses only existing
dicts and whose terminal key is present, `setPathGo` (without overwrite
permission) raises `KeyError` and returns the store unchanged. -/
theorem setPathGo_keyError (v : PyVal) :
    ∀ (ps : List String) (fk : String) (store d : List (String × PyVal)),
      resolveParts ps (.dict store) = .dict d →
      hasKey fk d = true →
      setPathGo v false (ps ++ [fk]) store = (some .keyError, store) := by
  intro ps
  induction ps with
  | nil =>
    intro fk store d hres hkey
    have hsd : store = d := by
      simpa [resolveParts] using hres
    subst hsd
    have hsome : (dictLookup fk store).isSome = true := by simpa [hasKey] using hkey
    obtain ⟨w, hw⟩ := Option.isSome_iff_exists.mp hsome
    simp [setPathGo, hw]
  | cons p ps ih =>
    intro fk store d hres hkey
    rw [show (p :: ps) ++ [fk] = p :: (ps ++ [fk]) from rfl]
    cases hl : dictLookup p store with
    | none => simp [resolveParts, hl] at hres
    | some w =>
      cases w with
      | dict d' =>
        have hres' : resolveParts ps (.dict d') = .dict d := by
          simpa [resolveParts, hl] using hres
        have hrec := ih fk d' d hres' hkey
        cases hps : ps ++ [fk] with
        | nil => exact absurd hps (by simp)
        | cons q rest =>
          rw [hps] at hrec
          simp only [setPathGo, hl, hrec]
          rw [dictSet_lookup_self hl]
      | none =>
        cases ps with
        | nil => simp [resolveParts, hl] at hres
        | cons q qs => simp [resolveParts, hl] at hres
      | pybool b =>
        cases ps with
        | nil => simp [resolveParts, hl] at hres
        | cons q qs => simp [resolveParts, hl] at hres
      | int n =>
        cases ps with
        | nil => simp [resolveParts, hl] at hres
        | cons q qs => simp [resolveParts, hl] at hres
      | flt q' =>
        cases ps with
        | nil => simp [resolveParts, hl] at hres
        | cons q qs => simp [resolveParts, hl] at hres
      | str s =>
        cases ps with
        | nil => simp [resolveParts, hl] at hres
        | cons q qs => simp [resolveParts, hl] at hres
      | list xs =>
        cases ps with
        | nil => simp [resolveParts, hl] at hres
        | cons q qs => simp [resolveParts, hl] at hres

/-- C4.  If the terminal key of the dot-path already exists (the prefix of
the path traverses existing dicts and the final segment is present in the
terminal dict), then `set_dot_path` without `allow_overwrite` fails with
`KeyError` and the store is left completely unchanged. -/
theorem C4_set_existing_key_fails_unchanged
    (dotPath : String) (v : PyVal) (store d : List (String × PyVal))
    (ps : List String) (fk : String)
    (hsplit : splitDot dotPath = ps ++ [fk])
    (hres : resolveParts ps (.dict store) = .dict d)
    (hkey : hasKey fk d = true) :
    set_dot_path dotPath v false store = (some SetErr.keyError, store) := by
  rw [set_dot_path, hsplit]
  exact setPathGo_keyError v ps fk store d hres hkey

/-- Witness for C4 at a concrete input: setting `"a.b"` on a store that
already holds `a.b = 1` raises `KeyError` and leaves the store intact. -/
theorem C4_witness :
    set_dot_path "a.b" (PyVal.int 5) false [("a", PyVal.dict [("b", PyVal.int 1)])]
      = (some SetErr.keyError, [("a", PyVal.dict [("b", PyVal.int 1)])]) :=
  C4_set_existing_key_fails_unchanged "a.b" (PyVal.int 5)
    [("a", PyVal.dict [("b", PyVal.int 1)])] [("b", PyVal.int 1)]
    ["a"] "b" rfl rfl rfl

/-- Key lemma for C9: a successful `setPathGo` along a nonempty segment
list makes the written value resolvable at that path. -/
theorem setPathGo_resolve (v : PyVal) (allow : Bool) :
    ∀ (ps : List String) (fk : String) (store r : List (String × PyVal)),
      setPathGo v allow (ps ++ [fk]) store = (Option.none, r) →
      resolveParts (ps ++ [fk]) (.dict r) = v := by
  intro ps
  induction ps with
  | nil =>
    intro fk store r hset
    by_cases hc : ((dictLookup fk store).isSome && !allow) = true
    · simp [setPathGo, hc] at hset
    · simp only [setPathGo] at hset
      rw [if_neg hc] at hset
      simp only [Prod.mk.injEq] at hset
      simp [resolveParts, ← hset.2, dictLookup_dictSet_self]
  | cons p ps ih =>
    intro fk store r hset
    rw [show (p :: ps) ++ [fk] = p :: (ps ++ [fk]) from rfl] at hset ⊢
    cases hps : ps ++ [fk] with
    | nil => exact absurd hps (by simp)
    | cons q rest =>
      rw [hps] at hset
      cases hl : dictLookup p store with
      | none =>
        simp only [setPathGo, hl] at hset
        cases hin : setPathGo v allow (q :: rest) [] with
        | mk e sub =>
          rw [hin] at hset
          simp only [Prod.mk.injEq] at hset
          obtain ⟨he, hr⟩ := hset
          have hrec := ih fk [] sub (by rw [hps, hin, he])
          rw [hps] at hrec
          rw [show resolveParts (p :: q :: rest) (PyVal.dict r)
              = (match dictLookup p r with
                 | some w => resolveParts (q :: rest) w
                 | Option.none => PyVal.none) from rfl]
          rw [← hr, dictLookup_dictSet_self]
          exact hrec
      | some w =>
        cases w with
        | dict d' =>
          simp only [setPathGo, hl] at hset
          cases hin : setPathGo v allow (q :: rest) d' with
          | mk e sub =>
            rw [hin] at hset
            simp only [Prod.mk.injEq] at hset
            obtain ⟨he, hr⟩ := hset
            have hrec := ih fk d' sub (by rw [hps, hin, he])
            rw [hps] at hrec
            rw [show resolveParts (p :: q :: rest) (PyVal.dict r)
                = (match dictLookup p r with
                   | some w => resolveParts (q :: rest) w
                   | Option.none => PyVal.none) from rfl]
            rw [← hr, dictLookup_dictSet_self]
            exact hrec
        | none => simp [setPathGo, hl] at hset
        | pybool b => simp [setPathGo, hl] at hset
        | int n => simp [setPathGo, hl] at hset
        | flt q' => simp [setPathGo, hl] at hset
        | str s => simp [setPathGo, hl] at hset
        | list xs => simp [setPathGo, hl] at hset

/-- `splitDotAux` never returns the empty list. -/
theorem splitDotAux_ne_nil : ∀ (cs acc : List Char), splitDotAux cs acc ≠ [] := by
  intro cs
  induction cs with
  | nil => intro acc; simp [splitDotAux]
  | cons c cs ih =>
    intro acc
    by_cases hc : c = '.'
    · simp [splitDotAux, hc]
    · simp [splitDotAux, hc]
      exact ih _

/-- A dot-path always splits into at least one segment (Python's
`"".split(".") == [""]`). -/
theorem splitDot_ne_nil (s : String) : splitDot s ≠ [] :=
  splitDotAux_ne_nil s.data []

/-- C9.  Whenever `set_dot_path(p, v)` succeeds (raises neither the
key-conflict `KeyError` nor the structural `ValueError`), a subsequent
`resolve_dot_path(p)` on the resulting store returns exactly `v`. -/
theorem C9_set_then_resolve
    (dotPath : String) (v : PyVal) (allow : Bool)
    (store r : List (String × PyVal))
    (hset : set_dot_path dotPath v allow store = (Option.none, r)) :
    resolve_dot_path dotPath Option.none (.dict r) = v := by
  rw [set_dot_path] at hset
  rw [show resolve_dot_path dotPath Option.none (.dict r)
      = resolveParts (splitDot dotPath) (.dict r) from rfl]
  cases hsp : splitDot dotPath with
  | nil => exact absurd hsp (splitDot_ne_nil dotPath)
  | cons p ps =>
    rw [hsp] at hset
    obtain ⟨ps', fk, hdecomp⟩ : ∃ ps' fk, p :: ps = ps' ++ [fk] := by
      refine ⟨(p :: ps).dropLast, (p :: ps).getLast (by simp), ?_⟩
      exact (List.dropLast_append_getLast (by simp)).symm
    rw [hdecomp] at hset ⊢
    exact setPathGo_resolve v allow ps' fk store r hset

/-- Witness for C9 at a concrete input: setting a fresh nested path and
resolving it returns the written value. -/
theorem C9_witness :
    resolve_dot_path "a.b" Option.none
      (.dict [("a", PyVal.dict [("b", PyVal.int 42)])]) = PyVal.int 42 :=
  C9_set_then_resolve "a.b" (PyVal.int 42) false [] _ rfl

/-- C10.  `resolve_dot_path` with a falsy `data` argument (in particular
the empty dict) ignores the supplied mapping and resolves against the
global clickmap instead; on a clickmap holding `a = 7`, resolving `"a"`
against the empty mapping returns `7` rather than absent. -/
theorem C10_falsy_data_falls_back_to_global
    (dotPath : String) (clickmap d : PyVal) (hfalsy : d.truthy = false) :
    resolve_dot_path dotPath (some d) clickmap
      = resolve_dot_path dotPath Option.none clickmap
    ∧ resolve_dot_path "a" (some (PyVal.dict []))
        (PyVal.dict [("a", PyVal.int 7)]) = PyVal.int 7 := by
  constructor
  · simp [resolve_dot_path, hfalsy]
  · rfl

/-- Witness for C10 at a concrete falsy mapping (the empty dict). -/
theorem C10_witness :
    resolve_dot_path "x.y" (some (PyVal.dict []))
        (PyVal.dict [("x", PyVal.dict [("y", PyVal.str "v")])])
      = resolve_dot_path "x.y" Option.none
        (PyVal.dict [("x", PyVal.dict [("y", PyVal.str "v")])]) :=
  (C10_falsy_data_falls_back_to_global "x.y"
    (PyVal.dict [("x", PyVal.dict [("y", PyVal.str "v")])])
    (PyVal.dict []) rfl).1

/-! ## Region matcher (`core/matcher.py`, `utils/template_matcher.py`)

The OpenCV calls and the filesystem are abstracted as oracles in
`MatchEnv`: `templateExists` is `os.path.exists`, `templateSize` is
`cv2.imread` (returning the template's width and height, or `none` when
loading fails), and `maxVal`/`maxLoc` give `cv2.minMaxLoc` of the
`cv2.matchTemplate` response for the clamped search rectangle and
template.  `cv2.error` on degenerate inputs is outside the model (the
checked claims never reach it). -/

/-- Oracles for the filesystem and OpenCV used by the matcher. -/
structure MatchEnv where
  templateExists : String → Bool
  templateSize : String → Option (Nat × Nat)
  screenW : Nat
  screenH : Nat
  maxVal : Int × Int × Int × Int → String → Rat
  maxLoc : Int × Int × Int × Int → String → Nat × Nat

/-- Exceptions the matcher can raise. -/
inductive MatchErr where
  | fileNotFound (path : String)
  | valueError (path : String)
  | typeError
  | attributeError
  | keyError (k : String)
  deriving DecidableEq

/-- Python `str()` as used by the f-string building the shared-region
dot-path.  Region references are strings in every clickmap entry; the
container cases are given placeholder renderings. -/
def pyStr : PyVal → String
  | .str s => s
  | .int n => toString n
  | .pybool b => if b then "True" else "False"
  | .none => "None"
  | .flt q => toString q
  | .list _ => "[list]"
  | .dict _ => "[dict]"

/-- A value usable directly as a Python int in arithmetic/slicing
(`int` or `bool`); anything else raises `TypeError` downstream. -/
def pyIntOf : PyVal → Option Int
  | .int n => some n
  | .pybool b => some (if b then 1 else 0)
  | _ => Option.none

/-- Truncation toward zero, as Python's `int()` does on floats. -/
def ratTrunc (q : Rat) : Int := if q < 0 then -((-q).floor) else q.floor

/-- Python `int(v)` for the padding cast in `core/matcher.py`
(string parsing of numerals is outside the modelled scope). -/
def pyToInt : PyVal → Option Int
  | .int n => some n
  | .flt q => some (ratTrunc q)
  | .pybool b => some (if b then 1 else 0)
  | _ => Option.none

/-- Python `float(v)` for the threshold cast. -/
def pyToRat : PyVal → Option Rat
  | .int n => some n
  | .flt q => some q
  | .pybool b => some (if b then 1 else 0)
  | _ => Option.none

/-- The default confidence threshold 0.9, written as an explicit reduced
fraction so that it evaluates inside the kernel. -/
def defaultThreshold : Rat := ⟨9, 10, by decide, by decide⟩

theorem defaultThreshold_eq : defaultThreshold = (9 : Rat) / 10 := by
  have h : ((9 : Rat)/10).num = 9 := by norm_num
  have h2 : ((9 : Rat)/10).den = 10 := by norm_num
  refine Rat.ext ?_ ?_ <;> simp [defaultThreshold, h, h2]

/-- Read the `\x7b'x','y','w','h'\x7d` rectangle out of a region dict:
a missing key is a `KeyError`, a non-int coordinate a `TypeError`. -/
def rectOf (rd : List (String × PyVal)) : Except MatchErr (Int × Int × Int × Int) := do
  let get (k : String) : Except MatchErr Int := do
    match dictLookup k rd with
    | Option.none => throw (.keyError k)
    | some v =>
      match pyIntOf v with
      | some n => pure n
      | Option.none => throw .typeError
  let x ← get "x"
  let y ← get "y"
  let w ← get "w"
  let h ← get "h"
  pure (x, y, w, h)

/-- Shared region-resolution step of `_match_entry` / `match_region`:
`region = entry.get("match_region")`; when that is `None` and the entry
carries a `region_ref`, look the name up under `_shared_match_regions`
and take its `match_region` (or `None` when the reference is unknown or
the resolved entry is falsy). -/
def resolveRegion (clickmap : PyVal) (es : List (String × PyVal)) :
    Except MatchErr PyVal :=
  let region0 : PyVal := (dictLookup "match_region" es).getD PyVal.none
  if region0.isNone && hasKey "region_ref" es then
    match dictLookup "region_ref" es with
    | some refv =>
      let regionEntry :=
        resolve_dot_path ("_shared_match_regions." ++ pyStr refv) Option.none clickmap
      if regionEntry.truthy then
        match regionEntry with
        | .dict re => .ok ((dictLookup "match_region" re).getD PyVal.none)
        | _ => .error .attributeError
      else .ok PyVal.none
    | Option.none => .ok PyVal.none
  else .ok region0

/-- `core/matcher.py::_match_entry(screenshot, entry, template_dir)`.
Returns `(point?, confidence)` on the normal paths; raised exceptions are
the `.error` branch.  The screenshot is represented by its dimensions in
the environment. -/
def matchEntry (env : MatchEnv) (clickmap : PyVal) (entry : PyVal)
    (templateDir : String) : Except MatchErr (Option (Int × Int) × Rat) := do
  if entry.truthy = false then return (Option.none, 0)
  match entry with
  | .dict es =>
    match dictLookup "match_template" es with
    | Option.none => return (Option.none, 0)
    | some tmpl =>
      match tmpl with
      | .str t =>
        let templatePath := templateDir ++ "/" ++ t
        if env.templateExists templatePath = false then
          throw (.fileNotFound templatePath)
        let region ← resolveRegion clickmap es
        if region.truthy = false then return (Option.none, 0)
        match region with
        | .dict rd =>
          let (x, y, w, h) ← rectOf rd
          let padding ←
            match dictLookup "match_padding" es with
            | Option.none => pure (12 : Int)
            | some pv =>
              match pyToInt pv with
              | some n => pure n
              | Option.none => throw .typeError
          let x1 := max 0 (x - padding)
          let y1 := max 0 (y - padding)
          let x2 := min (env.screenW : Int) (x + w + padding)
          let y2 := min (env.screenH : Int) (y + h + padding)
          if x1 ≥ x2 ∨ y1 ≥ y2 then return (Option.none, 0)
          match env.templateSize templatePath with
          | Option.none => throw (.valueError templatePath)
          | some (tw, th) =>
            let mv := env.maxVal (x1, y1, x2, y2) templatePath
            let loc := env.maxLoc (x1, y1, x2, y2) templatePath
            let threshold ←
              match dictLookup "match_threshold" es with
              | Option.none => pure defaultThreshold
              | some tv =>
                match pyToRat tv with
                | some q => pure q
                | Option.none => throw .typeError
            if mv ≥ threshold then
              return (some (x1 + loc.1 + tw / 2, y1 + loc.2 + th / 2), mv)
            else
              return (Option.none, mv)
        | _ => throw .typeError
      | _ => throw .typeError
  | _ => throw .typeError

/-- `core/matcher.py::get_match(dot_path, screenshot, template_dir)`:
resolve the entry by dot-path, bail out with `(None, 0.0)` when falsy,
else match. -/
def get_match (env : MatchEnv) (clickmap : PyVal) (dotPath : String)
    (templateDir : String) : Except MatchErr (Option (Int × Int) × Rat) :=
  let entry := resolve_dot_path dotPath Option.none clickmap
  if entry.truthy = false then .ok (Option.none, 0)
  else matchEntry env clickmap entry templateDir

/-- `utils/template_matcher.py::match_region(screen, entry, template_dir)`.
Differences from `_match_entry`: no falsy-entry guard, the padding is
used without an `int()` cast, and there is no empty-rectangle guard
before the OpenCV call. -/
def match_region (env : MatchEnv) (clickmap : PyVal) (entry : PyVal)
    (templateDir : String) : Except MatchErr (Option (Int × Int) × Rat) := do
  match entry with
  | .dict es =>
    match dictLookup "match_template" es with
    | Option.none => return (Option.none, 0)
    | some tmpl =>
      match tmpl with
      | .str t =>
        let templatePath := templateDir ++ "/" ++ t
        if env.templateExists templatePath = false then
          throw (.fileNotFound templatePath)
        let region ← resolveRegion clickmap es
        if region.truthy = false then return (Option.none, 0)
        match region with
        | .dict rd =>
          let (x, y, w, h) ← rectOf rd
          let padding ←
            match dictLookup "match_padding" es with
            | Option.none => pure (12 : Int)
            | some pv =>
              match pyIntOf pv with
              | some n => pure n
              | Option.none => throw .typeError
          let x1 := max 0 (x - padding)
          let y1 := max 0 (y - padding)
          let x2 := min (env.screenW : Int) (x + w + padding)
          let y2 := min (env.screenH : Int) (y + h + padding)
          match env.templateSize templatePath with
          | Option.none => throw (.valueError templatePath)
          | some (tw, th) =>
            let mv := env.maxVal (x1, y1, x2, y2) templatePath
            let loc := env.maxLoc (x1, y1, x2, y2) templatePath
            let threshold ←
              match dictLookup "match_threshold" es with
              | Option.none => pure defaultThreshold
              | some tv =>
                match pyToRat tv with
                | some q => pure q
                | Option.none => throw .typeError
            if mv ≥ threshold then
              return (some (x1 + loc.1 + tw / 2, y1 + loc.2 + th / 2), mv)
            else
              return (Option.none, mv)
        | _ => throw .typeError
      | _ => throw .typeError
  | _ => throw .typeError

/-- Environment for the C1 input: every template file exists and loads,
the screen is 1080x1920, all correlations are zero. -/
def c1Env : MatchEnv :=
  { templateExists := fun _ => true
    templateSize := fun _ => some (10, 10)
    screenW := 1080
    screenH := 1920
    maxVal := fun _ _ => 0
    maxLoc := fun _ _ => (0, 0) }

/-- A clickmap entry whose region is given only by a region reference with
no target under `_shared_match_regions`. -/
def c1Entry : PyVal :=
  .dict [("match_template", .str "indicators/game_over.png"),
         ("region_ref", .str "does_not_exist")]

/-- A clickmap store containing that entry and an empty shared-region
namespace, so the reference cannot resolve. -/
def c1Clickmap : PyVal :=
  .dict [("indicators", .dict [("game_over", c1Entry)]),
         ("_shared_match_regions", .dict [])]

/-- C1, counterexample.  On an entry whose `region_ref` does not resolve
under `_shared_match_regions` (and whose template file exists), the match
operation does NOT fail with a lookup error: `get_match`, `_match_entry`
and `match_region` all return the ordinary silent `(None, 0.0)`
not-visible result. -/
theorem C1_counterexample :
    resolve_dot_path "_shared_match_regions.does_not_exist" Option.none c1Clickmap
        = PyVal.none
    ∧ get_match c1Env c1Clickmap "indicators.game_over" "assets/match_templates"
        = .ok (Option.none, 0)
    ∧ match_region c1Env c1Clickmap c1Entry "assets/match_templates"
        = .ok (Option.none, 0) :=
  ⟨rfl, rfl, rfl⟩

/-- C1, amended.  For every clickmap entry whose region is given by a
region reference rather than an inline rectangle, if the reference does
not resolve under `_shared_match_regions` (resolution yields a falsy
value), then `_match_entry` and `match_region` return the silent
`(None, 0.0)` result — indistinguishable from a transient "not visible"
miss — rather than raising a lookup error. -/
theorem C1_unknown_region_ref_is_silent
    (env : MatchEnv) (clickmap : PyVal) (es : List (String × PyVal))
    (tdir t ref : String)
    (htmpl : dictLookup "match_template" es = some (.str t))
    (hexists : env.templateExists (tdir ++ "/" ++ t) = true)
    (hnoregion : (dictLookup "match_region" es).getD PyVal.none = PyVal.none)
    (href : dictLookup "region_ref" es = some (.str ref))
    (hunknown : (resolve_dot_path ("_shared_match_regions." ++ ref)
        Option.none clickmap).truthy = false) :
    matchEntry env clickmap (.dict es) tdir = .ok (Option.none, 0)
    ∧ match_region env clickmap (.dict es) tdir = .ok (Option.none, 0) := by
  have hne : es.isEmpty = false := by
    cases es with
    | nil => simp [dictLookup] at htmpl
    | cons a l => rfl
  have hregion : resolveRegion clickmap es = .ok PyVal.none := by
    simp [resolveRegion, hnoregion, hasKey, href, pyStr, hunknown, PyVal.isNone]
  constructor
  · simp [matchEntry, hne, htmpl, hexists, hregion, PyVal.truthy,
      Bind.bind, Except.bind, Pure.pure, Except.pure]
  · simp [match_region, htmpl, hexists, hregion, PyVal.truthy,
      Bind.bind, Except.bind, Pure.pure, Except.pure]

/-- Witness for the amended C1 at the concrete input used above. -/
theorem C1_witness :
    matchEntry c1Env c1Clickmap c1Entry "assets/match_templates"
        = .ok (Option.none, 0)
    ∧ match_region c1Env c1Clickmap c1Entry "assets/match_templates"
        = .ok (Option.none, 0) :=
  C1_unknown_region_ref_is_silent c1Env c1Clickmap
    [("match_template", .str "indicators/game_over.png"),
     ("region_ref", .str "does_not_exist")]
    "assets/match_templates" "indicators/game_over.png" "does_not_exist"
    rfl rfl rfl rfl rfl

/-! ## State detector (`core/state_detector.py`)

`detect_state_and_overlays` is embedded over:

* the declared state/overlay definitions (the parsed
  `state_definitions.yaml`, which ships outside the source tree);
* the clickmap store (for `resolve_dot_path` on match keys);
* a match oracle `String → Option (Int × Int)`, the per-key point result
  of `get_match` / `match_region` on the frame under classification.  The
  oracle abstracts the matcher's own computation on this screenshot — the
  raising paths of the matcher itself (missing template files) are
  modelled separately on `matchEntry` and are outside this abstraction.

A truthy entry that is not a dict would make Python's
`"match_template" not in entry` membership test (and the matcher's own
identical test) raise `TypeError` for the non-iterable entry types; that
is the `.typeError` branch here.  (For truthy `str`/`list` entries Python
would instead do substring/element tests; no clickmap entry is one.) -/

/-- One record of `state_definitions.yaml`'s `states` list:
`name`, optional `type` (read with default `"unknown"`), `match_keys`. -/
structure StateDef where
  name : String
  type? : Option String
  match_keys : List String
  deriving DecidableEq

/-- One record of the `overlays` list. -/
structure OverlayDef where
  name : String
  match_keys : List String
  deriving DecidableEq

/-- Exceptions `detect_state_and_overlays` can raise. -/
inductive DetectErr where
  | multiplePrimary (first second : String)
  | typeError
  deriving DecidableEq

/-- The per-state key scan (state_detector.py lines 97-110): resolve each
key; skip falsy entries (WARN) and entries without `match_template`
(WARN); the first key whose entry matches wins and the definition counts
as matched. -/
def scanKeys (clickmap : PyVal) (oracle : String → Option (Int × Int)) :
    List String → Except DetectErr Bool
  | [] => .ok false
  | k :: ks =>
    let entry := resolve_dot_path k Option.none clickmap
    if entry.truthy = false then scanKeys clickmap oracle ks
    else
      match entry with
      | .dict es =>
        if hasKey "match_template" es = false then scanKeys clickmap oracle ks
        else if (oracle k).isSome then .ok true
        else scanKeys clickmap oracle ks
      | _ => .error .typeError

/-- Collect the names of the matched state definitions, in declared
order (the `matched_states` list). -/
def matchStates (clickmap : PyVal) (oracle : String → Option (Int × Int)) :
    List StateDef → Except DetectErr (List String)
  | [] => .ok []
  | d :: ds => do
    let b ← scanKeys clickmap oracle d.match_keys
    let rest ← matchStates clickmap oracle ds
    pure (if b then d.name :: rest else rest)

/-- The classification loop (state_detector.py lines 114-128): look each
matched name up in the declared list, dispatch on its `type`; a second
primary while `result["state"]` is already set raises `RuntimeError`. -/
def classifyStates (defs : List StateDef) :
    List String → String → List String → List String →
    Except DetectErr (String × List String × List String)
  | [], st, menus, secs => .ok (st, menus, secs)
  | n :: ns, st, menus, secs =>
    match defs.find? (fun d => d.name == n) with
    | Option.none => classifyStates defs ns st menus secs
    | some d =>
      let ty := d.type?.getD "unknown"
      if ty = "primary" then
        if st ≠ "UNKNOWN" then .error (.multiplePrimary st n)
        else classifyStates defs ns n menus secs
      else if ty = "menu" then classifyStates defs ns st (menus ++ [n]) secs
      else classifyStates defs ns st menus (secs ++ [n])

/-- The per-overlay key scan (state_detector.py lines 139-149): like the
state scan but without the detector-level `match_template` gate —
`match_region` itself returns `(None, 0.0)` for template-less entries,
which the oracle accounts for. -/
def scanOverlayKeys (clickmap : PyVal) (oracle : String → Option (Int × Int)) :
    List String → Except DetectErr Bool
  | [] => .ok false
  | k :: ks =>
    let entry := resolve_dot_path k Option.none clickmap
    if entry.truthy = false then scanOverlayKeys clickmap oracle ks
    else
      match entry with
      | .dict _ =>
        if (oracle k).isSome then .ok true
        else scanOverlayKeys clickmap oracle ks
      | _ => .error .typeError

/-- Collect matched overlay names, in declared order. -/
def matchOverlays (clickmap : PyVal) (oracle : String → Option (Int × Int)) :
    List OverlayDef → Except DetectErr (List String)
  | [] => .ok []
  | o :: os => do
    let b ← scanOverlayKeys clickmap oracle o.match_keys
    let rest ← matchOverlays clickmap oracle os
    pure (if b then o.name :: rest else rest)

/-- The classification returned by `detect_state_and_overlays`, plus the
flag recording that the multiple-menus WARN line (line 134) was logged. -/
structure DetectResult where
  state : String
  secondary_states : List String
  overlays : List String
  menu : Option String
  warned_multiple_menus : Bool
  deriving DecidableEq

/-- `core/state_detector.py::detect_state_and_overlays`: match all states,
classify (raising on a second primary), pick the first matched menu in
declared order (warning when several matched), then match overlays. -/
def detect_state_and_overlays (states : List StateDef) (overlays : List OverlayDef)
    (clickmap : PyVal) (oracle : String → Option (Int × Int)) :
    Except DetectErr DetectResult := do
  let matched ← matchStates clickmap oracle states
  let (st, menus, secs) ← classifyStates states matched "UNKNOWN" [] []
  let ovl ← matchOverlays clickmap oracle overlays
  pure { state := st
         secondary_states := secs
         overlays := ovl
         menu := menus.head?
         warned_multiple_menus := decide (1 < menus.length) }

/-- A match key is well-formed for the detector when its entry is either
falsy or a dict (so no membership `TypeError` can arise). -/
def entryWF (clickmap : PyVal) (k : String) : Bool :=
  match resolve_dot_path k Option.none clickmap with
  | .dict _ => true
  | v => !v.truthy

/-- Whether a key contributes a match: truthy dict entry carrying a
`match_template`, and the oracle reports a point there. -/
def matchableKey (clickmap : PyVal) (oracle : String → Option (Int × Int))
    (k : String) : Bool :=
  match resolve_dot_path k Option.none clickmap with
  | .dict es => !es.isEmpty && hasKey "match_template" es && (oracle k).isSome
  | _ => false

/-- A state definition matches the frame iff some of its keys is
matchable. -/
def defMatched (clickmap : PyVal) (oracle : String → Option (Int × Int))
    (d : StateDef) : Bool :=
  d.match_keys.any (matchableKey clickmap oracle)

/-- The declared `type` of the first definition carrying a given name, as
used by the classification loop. -/
def lookupType (defs : List StateDef) (n : String) : Option String :=
  match defs.find? (fun d => d.name == n) with
  | some d => some (d.type?.getD "unknown")
  | Option.none => Option.none

def isPrimName (defs : List StateDef) (n : String) : Bool :=
  lookupType defs n == some "primary"

def isMenuName (defs : List StateDef) (n : String) : Bool :=
  lookupType defs n == some "menu"

/-- The state key scan never raises on well-formed keys and reports
exactly whether some key is matchable. -/
theorem scanKeys_ok (clickmap : PyVal) (oracle : String → Option (Int × Int)) :
    ∀ (keys : List String), (∀ k ∈ keys, entryWF clickmap k = true) →
      scanKeys clickmap oracle keys = .ok (keys.any (matchableKey clickmap oracle)) := by
  intro keys
  induction keys with
  | nil => intro _; rfl
  | cons k ks ih =>
    intro hwf
    have hk := hwf k (by simp)
    have hks : ∀ k' ∈ ks, entryWF clickmap k' = true := fun k' hk' => hwf k' (by simp [hk'])
    cases he : resolve_dot_path k Option.none clickmap with
    | dict es =>
      by_cases hemp : es.isEmpty
      · have htr : (PyVal.dict es).truthy = false := by simp [PyVal.truthy, hemp]
        simp [scanKeys, he, htr, List.any_cons, matchableKey, hemp, ih hks]
      · have htr : (PyVal.dict es).truthy = true := by simp [PyVal.truthy, hemp]
        by_cases htm : hasKey "match_template" es
        · by_cases hor : (oracle k).isSome
          · simp [scanKeys, he, htr, htm, hor, List.any_cons, matchableKey, hemp]
          · simp [scanKeys, he, htr, htm, hor, List.any_cons, matchableKey, hemp, ih hks]
        · simp [scanKeys, he, htr, htm, List.any_cons, matchableKey, hemp, ih hks]
    | none => simp [scanKeys, he, PyVal.truthy, List.any_cons, matchableKey, ih hks]
    | pybool b =>
      cases b with
      | false => simp [scanKeys, he, PyVal.truthy, List.any_cons, matchableKey, ih hks]
      | true => simp [entryWF, he, PyVal.truthy] at hk
    | int n =>
      by_cases hz : n = 0
      · simp [scanKeys, he, PyVal.truthy, hz, List.any_cons, matchableKey, ih hks]
      · simp [entryWF, he, PyVal.truthy, hz] at hk
    | flt q =>
      by_cases hz : q = 0
      · simp [scanKeys, he, PyVal.truthy, hz, List.any_cons, matchableKey, ih hks]
      · simp [entryWF, he, PyVal.truthy, hz] at hk
    | str s =>
      by_cases hz : s = ""
      · simp [scanKeys, he, PyVal.truthy, hz, List.any_cons, matchableKey, ih hks]
      · simp [entryWF, he, PyVal.truthy, hz] at hk
    | list xs =>
      by_cases hz : xs.isEmpty
      · simp [scanKeys, he, PyVal.truthy, hz, List.any_cons, matchableKey, ih hks]
      · simp [entryWF, he, PyVal.truthy, hz] at hk

/-- With well-formed keys, the matching pass returns exactly the names of
the matched definitions, in declared order. -/
theorem matchStates_ok (clickmap : PyVal) (oracle : String → Option (Int × Int)) :
    ∀ (defs : List StateDef),
      (∀ d ∈ defs, ∀ k ∈ d.match_keys, entryWF clickmap k = true) →
      matchStates clickmap oracle defs
        = .ok ((defs.filter (defMatched clickmap oracle)).map StateDef.name) := by
  intro defs
  induction defs with
  | nil => intro _; rfl
  | cons d ds ih =>
    intro hwf
    have hd := scanKeys_ok clickmap oracle d.match_keys (hwf d (by simp))
    have hds := ih (fun d' hd' k hk => hwf d' (by simp [hd']) k hk)
    have hdm : defMatched clickmap oracle d
        = d.match_keys.any (matchableKey clickmap oracle) := rfl
    cases hany : d.match_keys.any (matchableKey clickmap oracle) with
    | false =>
      simp only [matchStates, hd, hany, hds, Bind.bind, Except.bind, Pure.pure, Except.pure]
      simp [List.filter_cons, hdm, hany]
    | true =>
      simp only [matchStates, hd, hany, hds, Bind.bind, Except.bind, Pure.pure, Except.pure]
      simp [List.filter_cons, hdm, hany]

/-- If a primary state is already recorded, any further matched primary
name makes the classification loop raise. -/
theorem classifyStates_err_of_primary (defs : List StateDef) :
    ∀ (names : List String) (st : String) (menus secs : List String),
      st ≠ "UNKNOWN" →
      (∃ n ∈ names, isPrimName defs n = true) →
      ∃ a b, classifyStates defs names st menus secs
        = .error (.multiplePrimary a b) := by
  intro names
  induction names with
  | nil => intro st menus secs _ h; simp at h
  | cons n ns ih =>
    intro st menus secs hst h
    cases hfind : defs.find? (fun d => d.name == n) with
    | none =>
      have hn : isPrimName defs n = false := by simp [isPrimName, lookupType, hfind]
      obtain ⟨m, hm, hpm⟩ := h
      rcases List.mem_cons.mp hm with rfl | hmns
      · rw [hn] at hpm; exact absurd hpm (by simp)
      · obtain ⟨a, b, hab⟩ := ih st menus secs hst ⟨m, hmns, hpm⟩
        exact ⟨a, b, by simp [classifyStates, hfind, hab]⟩
    | some d =>
      by_cases hty : d.type?.getD "unknown" = "primary"
      · exact ⟨st, n, by simp [classifyStates, hfind, hty, hst]⟩
      · have hn : isPrimName defs n = false := by
          simp [isPrimName, lookupType, hfind, hty]
        obtain ⟨m, hm, hpm⟩ := h
        rcases List.mem_cons.mp hm with rfl | hmns
        · rw [hn] at hpm; exact absurd hpm (by simp)
        · by_cases hmenu : d.type?.getD "unknown" = "menu"
          · obtain ⟨a, b, hab⟩ := ih st (menus ++ [n]) secs hst ⟨m, hmns, hpm⟩
            exact ⟨a, b, by simp [classifyStates, hfind, hty, hmenu, hab]⟩
          · obtain ⟨a, b, hab⟩ := ih st menus (secs ++ [n]) hst ⟨m, hmns, hpm⟩
            exact ⟨a, b, by simp [classifyStates, hfind, hty, hmenu, hab]⟩

/-- Two matched primary names (none of them the `"UNKNOWN"` sentinel)
make the classification loop raise. -/
theorem classifyStates_err_of_two_primaries (defs : List StateDef) :
    ∀ (names : List String) (menus secs : List String),
      2 ≤ (names.filter (isPrimName defs)).length →
      (∀ n ∈ names, isPrimName defs n = true → n ≠ "UNKNOWN") →
      ∃ a b, classifyStates defs names "UNKNOWN" menus secs
        = .error (.multiplePrimary a b) := by
  intro names
  induction names with
  | nil => intro menus secs h _; simp at h
  | cons n ns ih =>
    intro menus secs hcount hnotU
    by_cases hp : isPrimName defs n = true
    · have hnU : n ≠ "UNKNOWN" := hnotU n (by simp) hp
      obtain ⟨d, hfind, hty⟩ :
          ∃ d, defs.find? (fun d => d.name == n) = some d
            ∧ d.type?.getD "unknown" = "primary" := by
        cases hfind : defs.find? (fun d => d.name == n) with
        | none => simp [isPrimName, lookupType, hfind] at hp
        | some d =>
          refine ⟨d, rfl, ?_⟩
          simpa [isPrimName, lookupType, hfind] using hp
      have hcount' : 1 ≤ (ns.filter (isPrimName defs)).length := by
        have : (List.filter (isPrimName defs) (n :: ns)).length
            = (ns.filter (isPrimName defs)).length + 1 := by
          simp [List.filter_cons, hp]
        omega
      obtain ⟨m, hmem⟩ : ∃ m, m ∈ ns.filter (isPrimName defs) := by
        cases hf : ns.filter (isPrimName defs) with
        | nil => rw [hf] at hcount'; simp at hcount'
        | cons a l => exact ⟨a, by simp [hf]⟩
      have hmns : m ∈ ns := (List.mem_filter.mp hmem).1
      have hpm : isPrimName defs m = true := (List.mem_filter.mp hmem).2
      obtain ⟨a, b, hab⟩ :=
        classifyStates_err_of_primary defs ns n menus secs hnU ⟨m, hmns, hpm⟩
      exact ⟨a, b, by simp [classifyStates, hfind, hty, hab]⟩
    · have hcount' : 2 ≤ (ns.filter (isPrimName defs)).length := by
        have : (List.filter (isPrimName defs) (n :: ns)).length
            = (ns.filter (isPrimName defs)).length := by
          simp [List.filter_cons, hp]
        omega
      have hnotU' : ∀ n' ∈ ns, isPrimName defs n' = true → n' ≠ "UNKNOWN" :=
        fun n' h' => hnotU n' (by simp [h'])
      cases hfind : defs.find? (fun d => d.name == n) with
      | none =>
        obtain ⟨a, b, hab⟩ := ih menus secs hcount' hnotU'
        exact ⟨a, b, by simp [classifyStates, hfind, hab]⟩
      | some d =>
        have hty : d.type?.getD "unknown" ≠ "primary" := by
          intro hc
          simp [isPrimName, lookupType, hfind, hc] at hp
        by_cases hmenu : d.type?.getD "unknown" = "menu"
        · obtain ⟨a, b, hab⟩ := ih (menus ++ [n]) secs hcount' hnotU'
          exact ⟨a, b, by simp [classifyStates, hfind, hty, hmenu, hab]⟩
        · obtain ⟨a, b, hab⟩ := ih menus (secs ++ [n]) hcount' hnotU'
          exact ⟨a, b, by simp [classifyStates, hfind, hty, hmenu, hab]⟩

/-- With pairwise-distinct declared names, the by-name lookup of the
classification loop finds the definition itself. -/
theorem find?_eq_of_nodup :
    ∀ (defs : List StateDef), (defs.map StateDef.name).Nodup →
      ∀ d ∈ defs, defs.find? (fun x => x.name == d.name) = some d := by
  intro defs
  induction defs with
  | nil => intro _ d hd; simp at hd
  | cons h t ih =>
    intro hnodup d hd
    rcases List.mem_cons.mp hd with rfl | hdt
    · simp [List.find?]
    · have hne : h.name ≠ d.name := by
        intro hc
        have : d.name ∈ t.map StateDef.name := List.mem_map_of_mem _ hdt
        rw [← hc] at this
        exact (List.nodup_cons.mp (by simpa using hnodup)).1 this
      have : (h.name == d.name) = false := by simp [hne]
      simp [List.find?, this]
      exact ih (List.nodup_cons.mp (by simpa using hnodup)).2 d hdt

/-- A list containing two distinct values has length at least two. -/
theorem two_mem_le_length {α : Type} :
    ∀ (l : List α) (a b : α), a ∈ l → b ∈ l → a ≠ b → 2 ≤ l.length := by
  intro l
  induction l with
  | nil => intro a b ha; simp at ha
  | cons h t ih =>
    intro a b ha hb hne
    rcases List.mem_cons.mp ha with rfl | hat
    · rcases List.mem_cons.mp hb with rfl | hbt
      · exact absurd rfl hne
      · have := List.length_pos.mpr (List.ne_nil_of_mem hbt)
        simp only [List.length_cons]
        omega
    · have := List.length_pos.mpr (List.ne_nil_of_mem hat)
      simp only [List.length_cons]
      omega

/-- C2.  For every frame (match oracle) on which two distinct primary
state definitions both match, `detect_state_and_overlays` raises the
multiple-primary `RuntimeError` before producing any classification.
Hypotheses: the match-key entries are well-formed (dict or falsy),
declared names are pairwise distinct, and no definition uses the reserved
`"UNKNOWN"` sentinel as its name — both facts the spec's data model
requires of the declaration document. -/
theorem C2_two_primaries_raise
    (states : List StateDef) (overlays : List OverlayDef)
    (clickmap : PyVal) (oracle : String → Option (Int × Int))
    (d1 d2 : StateDef)
    (hwf : ∀ d ∈ states, ∀ k ∈ d.match_keys, entryWF clickmap k = true)
    (hnodup : (states.map StateDef.name).Nodup)
    (hnoUnknown : ∀ d ∈ states, d.name ≠ "UNKNOWN")
    (h1 : d1 ∈ states) (h2 : d2 ∈ states) (hne : d1 ≠ d2)
    (hp1 : d1.type?.getD "unknown" = "primary")
    (hp2 : d2.type?.getD "unknown" = "primary")
    (hm1 : defMatched clickmap oracle d1 = true)
    (hm2 : defMatched clickmap oracle d2 = true) :
    ∃ a b, detect_state_and_overlays states overlays clickmap oracle
      = .error (.multiplePrimary a b) := by
  have hMS := matchStates_ok clickmap oracle states hwf
  set M := (states.filter (defMatched clickmap oracle)).map StateDef.name with hM
  have hnameNe : d1.name ≠ d2.name := by
    intro hc
    exact hne (List.inj_on_of_nodup_map hnodup h1 h2 hc)
  have hmem1 : d1.name ∈ M := by
    exact List.mem_map_of_mem _ (List.mem_filter.mpr ⟨h1, hm1⟩)
  have hmem2 : d2.name ∈ M := by
    exact List.mem_map_of_mem _ (List.mem_filter.mpr ⟨h2, hm2⟩)
  have hprim1 : isPrimName states d1.name = true := by
    simp [isPrimName, lookupType, find?_eq_of_nodup states hnodup d1 h1, hp1]
  have hprim2 : isPrimName states d2.name = true := by
    simp [isPrimName, lookupType, find?_eq_of_nodup states hnodup d2 h2, hp2]
  have hcount : 2 ≤ (M.filter (isPrimName states)).length := by
    refine two_mem_le_length _ d1.name d2.name ?_ ?_ hnameNe
    · exact List.mem_filter.mpr ⟨hmem1, hprim1⟩
    · exact List.mem_filter.mpr ⟨hmem2, hprim2⟩
  have hnotU : ∀ n ∈ M, isPrimName states n = true → n ≠ "UNKNOWN" := by
    intro n hn _
    obtain ⟨d, hdmem, rfl⟩ := List.mem_map.mp hn
    exact hnoUnknown d (List.mem_filter.mp hdmem).1
  obtain ⟨a, b, hab⟩ :=
    classifyStates_err_of_two_primaries states M [] [] hcount hnotU
  exact ⟨a, b, by
    simp [detect_state_and_overlays, hMS, ← hM, hab, Bind.bind, Except.bind]⟩

/-- Concrete state declarations for the C2/C8 witnesses: two primary
states, two menus, one secondary. -/
def wStates : List StateDef :=
  [⟨"RUNNING", some "primary", ["indicators.running"]⟩,
   ⟨"GAME_OVER", some "primary", ["indicators.game_over"]⟩,
   ⟨"ATTACK_MENU", some "menu", ["menus.attack"]⟩,
   ⟨"DEFENSE_MENU", some "menu", ["menus.defense"]⟩,
   ⟨"PAUSED", some "secondary", ["indicators.paused"]⟩]

/-- A clickmap store carrying a well-formed dict entry (with a template)
for each match key of `wStates`. -/
def wClickmap : PyVal :=
  .dict [("indicators",
            .dict [("running", .dict [("match_template", .str "r.png")]),
                   ("game_over", .dict [("match_template", .str "g.png")]),
                   ("paused", .dict [("match_template", .str "p.png")])]),
         ("menus",
            .dict [("attack", .dict [("match_template", .str "a.png")]),
                   ("defense", .dict [("match_template", .str "d.png")])])]

/-- Witness for C2: on a frame where both primary definitions match,
the detector raises. -/
theorem C2_witness :
    ∃ a b, detect_state_and_overlays wStates [] wClickmap (fun _ => some (0, 0))
      = .error (.multiplePrimary a b) :=
  C2_two_primaries_raise wStates [] wClickmap (fun _ => some (0, 0))
    ⟨"RUNNING", some "primary", ["indicators.running"]⟩
    ⟨"GAME_OVER", some "primary", ["indicators.game_over"]⟩
    (by decide) (by decide) (by decide)
    (by decide) (by decide) (by decide)
    rfl rfl rfl rfl

/-- When at most one matched name (and none at all once a primary is
recorded) classifies as primary, the classification loop succeeds and
accumulates exactly the matched menu names in order. -/
theorem classifyStates_ok (defs : List StateDef) :
    ∀ (names : List String) (st : String) (menus secs : List String),
      ((st = "UNKNOWN" ∧ (names.filter (isPrimName defs)).length ≤ 1)
        ∨ (st ≠ "UNKNOWN" ∧ (names.filter (isPrimName defs)).length = 0)) →
      ∃ stF secsF, classifyStates defs names st menus secs
        = .ok (stF, menus ++ names.filter (isMenuName defs), secsF) := by
  intro names
  induction names with
  | nil => intro st menus secs _; exact ⟨st, secs, by simp [classifyStates]⟩
  | cons n ns ih =>
    intro st menus secs H
    cases hfind : defs.find? (fun d => d.name == n) with
    | none =>
      have hpn : isPrimName defs n = false := by simp [isPrimName, lookupType, hfind]
      have hmn : isMenuName defs n = false := by simp [isMenuName, lookupType, hfind]
      have H' : (st = "UNKNOWN" ∧ (ns.filter (isPrimName defs)).length ≤ 1)
          ∨ (st ≠ "UNKNOWN" ∧ (ns.filter (isPrimName defs)).length = 0) := by
        rcases H with ⟨h1, h2⟩ | ⟨h1, h2⟩
        · exact Or.inl ⟨h1, by simpa [List.filter_cons, hpn] using h2⟩
        · exact Or.inr ⟨h1, by simpa [List.filter_cons, hpn] using h2⟩
      obtain ⟨stF, secsF, h⟩ := ih st menus secs H'
      exact ⟨stF, secsF, by simp [classifyStates, hfind, h, List.filter_cons, hmn]⟩
    | some d =>
      by_cases hty : d.type?.getD "unknown" = "primary"
      · have hpn : isPrimName defs n = true := by
          simp [isPrimName, lookupType, hfind, hty]
        have hmn : isMenuName defs n = false := by
          simp [isMenuName, lookupType, hfind, hty]
        have hcnt : ((n :: ns).filter (isPrimName defs)).length
            = (ns.filter (isPrimName defs)).length + 1 := by
          simp [List.filter_cons, hpn]
        rcases H with ⟨hst, h2⟩ | ⟨_, h2⟩
        · have hzero : (ns.filter (isPrimName defs)).length = 0 := by omega
          have H' : (n = "UNKNOWN" ∧ (ns.filter (isPrimName defs)).length ≤ 1)
              ∨ (n ≠ "UNKNOWN" ∧ (ns.filter (isPrimName defs)).length = 0) := by
            by_cases hnu : n = "UNKNOWN"
            · exact Or.inl ⟨hnu, by omega⟩
            · exact Or.inr ⟨hnu, hzero⟩
          obtain ⟨stF, secsF, h⟩ := ih n menus secs H'
          refine ⟨stF, secsF, ?_⟩
          simp [classifyStates, hfind, hty, hst, h, List.filter_cons, hmn]
        · omega
      · by_cases hmenu : d.type?.getD "unknown" = "menu"
        · have hpn : isPrimName defs n = false := by
            simp [isPrimName, lookupType, hfind, hty]
          have hmn : isMenuName defs n = true := by
            simp [isMenuName, lookupType, hfind, hmenu]
          have H' : (st = "UNKNOWN" ∧ (ns.filter (isPrimName defs)).length ≤ 1)
              ∨ (st ≠ "UNKNOWN" ∧ (ns.filter (isPrimName defs)).length = 0) := by
            rcases H with ⟨h1, h2⟩ | ⟨h1, h2⟩
            · exact Or.inl ⟨h1, by simpa [List.filter_cons, hpn] using h2⟩
            · exact Or.inr ⟨h1, by simpa [List.filter_cons, hpn] using h2⟩
          obtain ⟨stF, secsF, h⟩ := ih st (menus ++ [n]) secs H'
          refine ⟨stF, secsF, ?_⟩
          simp [classifyStates, hfind, hty, hmenu, h, List.filter_cons, hmn]
        · have hpn : isPrimName defs n = false := by
            simp [isPrimName, lookupType, hfind, hty]
          have hmn : isMenuName defs n = false := by
            simp [isMenuName, lookupType, hfind, hmenu]
          have H' : (st = "UNKNOWN" ∧ (ns.filter (isPrimName defs)).length ≤ 1)
              ∨ (st ≠ "UNKNOWN" ∧ (ns.filter (isPrimName defs)).length = 0) := by
            rcases H with ⟨h1, h2⟩ | ⟨h1, h2⟩
            · exact Or.inl ⟨h1, by simpa [List.filter_cons, hpn] using h2⟩
            · exact Or.inr ⟨h1, by simpa [List.filter_cons, hpn] using h2⟩
          obtain ⟨stF, secsF, h⟩ := ih st menus (secs ++ [n]) H'
          refine ⟨stF, secsF, ?_⟩
          simp [classifyStates, hfind, hty, hmenu, h, List.filter_cons, hmn]

/-- The overlay key scan never raises on well-formed keys. -/
theorem scanOverlayKeys_not_err (clickmap : PyVal)
    (oracle : String → Option (Int × Int)) :
    ∀ (keys : List String), (∀ k ∈ keys, entryWF clickmap k = true) →
      ∃ b, scanOverlayKeys clickmap oracle keys = .ok b := by
  intro keys
  induction keys with
  | nil => intro _; exact ⟨false, rfl⟩
  | cons k ks ih =>
    intro hwf
    have hk := hwf k (by simp)
    have hks : ∀ k' ∈ ks, entryWF clickmap k' = true := fun k' hk' => hwf k' (by simp [hk'])
    obtain ⟨b, hb⟩ := ih hks
    cases he : resolve_dot_path k Option.none clickmap with
    | dict es =>
      by_cases hemp : es.isEmpty
      · exact ⟨b, by simp [scanOverlayKeys, he, PyVal.truthy, hemp, hb]⟩
      · by_cases hor : (oracle k).isSome
        · exact ⟨true, by simp [scanOverlayKeys, he, PyVal.truthy, hemp, hor]⟩
        · exact ⟨b, by simp [scanOverlayKeys, he, PyVal.truthy, hemp, hor, hb]⟩
    | none => exact ⟨b, by simp [scanOverlayKeys, he, PyVal.truthy, hb]⟩
    | pybool bb =>
      cases bb with
      | false => exact ⟨b, by simp [scanOverlayKeys, he, PyVal.truthy, hb]⟩
      | true => simp [entryWF, he, PyVal.truthy] at hk
    | int n =>
      by_cases hz : n = 0
      · exact ⟨b, by simp [scanOverlayKeys, he, PyVal.truthy, hz, hb]⟩
      · simp [entryWF, he, PyVal.truthy, hz] at hk
    | flt q =>
      by_cases hz : q = 0
      · exact ⟨b, by simp [scanOverlayKeys, he, PyVal.truthy, hz, hb]⟩
      · simp [entryWF, he, PyVal.truthy, hz] at hk
    | str s =>
      by_cases hz : s = ""
      · exact ⟨b, by simp [scanOverlayKeys, he, PyVal.truthy, hz, hb]⟩
      · simp [entryWF, he, PyVal.truthy, hz] at hk
    | list xs =>
      by_cases hz : xs.isEmpty
      · exact ⟨b, by simp [scanOverlayKeys, he, PyVal.truthy, hz, hb]⟩
      · simp [entryWF, he, PyVal.truthy, hz] at hk

/-- The overlay pass never raises on well-formed keys. -/
theorem matchOverlays_not_err (clickmap : PyVal)
    (oracle : String → Option (Int × Int)) :
    ∀ (ovls : List OverlayDef),
      (∀ o ∈ ovls, ∀ k ∈ o.match_keys, entryWF clickmap k = true) →
      ∃ l, matchOverlays clickmap oracle ovls = .ok l := by
  intro ovls
  induction ovls with
  | nil => intro _; exact ⟨[], rfl⟩
  | cons o os ih =>
    intro hwf
    obtain ⟨b, hb⟩ := scanOverlayKeys_not_err clickmap oracle o.match_keys (hwf o (by simp))
    obtain ⟨l, hl⟩ := ih (fun o' ho' k hk => hwf o' (by simp [ho']) k hk)
    exact ⟨if b then o.name :: l else l,
      by simp [matchOverlays, hb, hl, Bind.bind, Except.bind, Pure.pure, Except.pure]⟩

/-- C8.  On every frame where two or more menu-typed definitions match
(and, per the declared-data invariants, names are distinct, entries are
well-formed, and at most one primary-typed definition matched), the
detector returns a classification whose `menu` field is exactly the
matched menu definition that appears first in declared order, and the
multiple-menus warning is emitted. -/
theorem C8_first_matched_menu_wins
    (states : List StateDef) (overlays : List OverlayDef)
    (clickmap : PyVal) (oracle : String → Option (Int × Int))
    (hwfS : ∀ d ∈ states, ∀ k ∈ d.match_keys, entryWF clickmap k = true)
    (hwfO : ∀ o ∈ overlays, ∀ k ∈ o.match_keys, entryWF clickmap k = true)
    (hnodup : (states.map StateDef.name).Nodup)
    (hprim : (states.filter (fun d => defMatched clickmap oracle d
        && (d.type?.getD "unknown" == "primary"))).length ≤ 1)
    (hmenus : 2 ≤ (states.filter (fun d => defMatched clickmap oracle d
        && (d.type?.getD "unknown" == "menu"))).length) :
    ∃ res firstMenu rest,
      states.filter (fun d => defMatched clickmap oracle d
          && (d.type?.getD "unknown" == "menu")) = firstMenu :: rest
      ∧ detect_state_and_overlays states overlays clickmap oracle = .ok res
      ∧ res.menu = some firstMenu.name
      ∧ res.warned_multiple_menus = true := by
  have hMS := matchStates_ok clickmap oracle states hwfS
  set M := (states.filter (defMatched clickmap oracle)).map StateDef.name with hM
  have hbridge : ∀ (p : StateDef → Bool) (q : String → Bool),
      (∀ d ∈ states, q d.name = p d) →
      M.filter q = (states.filter
        (fun d => defMatched clickmap oracle d && p d)).map StateDef.name := by
    intro p q hpq
    rw [hM, List.filter_map]
    have hcongr : (states.filter (defMatched clickmap oracle)).filter
          (q ∘ StateDef.name)
        = (states.filter (defMatched clickmap oracle)).filter p := by
      refine List.filter_congr ?_
      intro d hd
      exact hpq d (List.mem_filter.mp hd).1
    rw [show List.filter (q ∘ StateDef.name) (states.filter (defMatched clickmap oracle))
        = (states.filter (defMatched clickmap oracle)).filter (q ∘ StateDef.name) from rfl]
    rw [hcongr, List.filter_filter]
    congr 1
    refine List.filter_congr ?_
    intro d _
    rw [Bool.and_comm]
  have hqp_prim : ∀ d ∈ states,
      isPrimName states d.name = (d.type?.getD "unknown" == "primary") := by
    intro d hd
    simp [isPrimName, lookupType, find?_eq_of_nodup states hnodup d hd]
  have hqp_menu : ∀ d ∈ states,
      isMenuName states d.name = (d.type?.getD "unknown" == "menu") := by
    intro d hd
    simp [isMenuName, lookupType, find?_eq_of_nodup states hnodup d hd]
  have hprimM : (M.filter (isPrimName states)).length ≤ 1 := by
    rw [hbridge _ _ hqp_prim, List.length_map]
    exact hprim
  obtain ⟨stF, secsF, hcl⟩ :=
    classifyStates_ok states M "UNKNOWN" [] [] (Or.inl ⟨rfl, hprimM⟩)
  obtain ⟨ovl, hovl⟩ := matchOverlays_not_err clickmap oracle overlays hwfO
  have hmenusM : M.filter (isMenuName states)
      = (states.filter (fun d => defMatched clickmap oracle d
          && (d.type?.getD "unknown" == "menu"))).map StateDef.name :=
    hbridge _ _ hqp_menu
  cases hsplit : states.filter (fun d => defMatched clickmap oracle d
      && (d.type?.getD "unknown" == "menu")) with
  | nil => rw [hsplit] at hmenus; simp at hmenus
  | cons firstMenu rest =>
    refine ⟨{ state := stF
              secondary_states := secsF
              overlays := ovl
              menu := (M.filter (isMenuName states)).head?
              warned_multiple_menus := decide (1 < (M.filter (isMenuName states)).length) },
            firstMenu, rest, rfl, ?_, ?_, ?_⟩
    · simp [detect_state_and_overlays, hMS, ← hM, hcl, hovl, Bind.bind, Except.bind,
        Pure.pure, Except.pure]
    · simp [hmenusM, hsplit]
    · rw [hsplit] at hmenus
      simp only [hmenusM, hsplit, List.length_cons, List.length_map]
      rw [decide_eq_true_eq.mpr]
      simp at hmenus ⊢
      omega

/-- Frame oracle for the C8 witness: only the two menu keys match. -/
def c8Oracle : String → Option (Int × Int) :=
  fun k => if k == "menus.attack" || k == "menus.defense"
           then some (0, 0) else Option.none

/-- Witness for C8: with both menus matching, the first declared menu is
chosen and the warning is emitted. -/
theorem C8_witness :
    ∃ res firstMenu rest,
      wStates.filter (fun d => defMatched wClickmap c8Oracle d
          && (d.type?.getD "unknown" == "menu")) = firstMenu :: rest
      ∧ detect_state_and_overlays wStates [] wClickmap c8Oracle = .ok res
      ∧ res.menu = some firstMenu.name
      ∧ res.warned_multiple_menus = true :=
  C8_first_matched_menu_wins wStates [] wClickmap c8Oracle
    (by decide) (by decide) (by decide) (by decide) (by decide)

/-! ## Tap dispatcher (`core/tap_dispatcher.py` + `core/adb_utils.py`)

The consumer loop `_tap_worker` dequeues items forever; its `try` block
catches only `queue.Empty`.  Device I/O happens through `adb_shell`, whose
own try/except catches `CalledProcessError` and every other exception,
prints an error line, and returns `None` — so `adb_shell` is a total
function and no device failure can propagate into the worker loop.  The
run of the worker over a queue of items (each paired with the outcome the
device produces for it) is modelled below; log output is structural. -/

/-- Outcome of the underlying `subprocess.run` call. -/
inductive SubprocResult where
  | completed
  | calledProcessError (msg : String)
  | otherError (msg : String)
  deriving DecidableEq

def SubprocResult.failing : SubprocResult → Bool
  | .completed => false
  | _ => true

/-- Lines printed/logged by the dispatcher stack. -/
inductive LogLine where
  | adbError (msg : String)
  | tapAction (x y : Int) (label : Option String)
  deriving DecidableEq

def LogLine.isError : LogLine → Bool
  | .adbError _ => true
  | _ => false

/-- `core/adb_utils.py::adb_shell` for an `input tap` call: returns the
completed process (unit here) on success, prints an error and returns
`None` on `CalledProcessError` or any unexpected exception.  Total — it
never lets an exception escape. -/
def adb_shell (r : SubprocResult) : Option Unit × List LogLine :=
  match r with
  | .completed => (some (), [])
  | .calledProcessError m => (Option.none, [.adbError ("ADB command failed: " ++ m)])
  | .otherError m => (Option.none, [.adbError ("Unexpected ADB exception: " ++ m)])

/-- A queued tap request: the current 4-tuple form or the legacy 3-tuple
(which the worker treats as `log_it=True`). -/
inductive TapItem where
  | quad (x y : Int) (label : Option String) (logIt : Bool)
  | triple (x y : Int) (label : Option String)
  deriving DecidableEq

def TapItem.coords : TapItem → Int × Int
  | .quad x y _ _ => (x, y)
  | .triple x y _ => (x, y)

/-- One iteration of `_tap_worker` servicing one dequeued item: unpack,
issue the tap via `adb_shell`, then `log_tap` when requested.  Returns the
coordinates tapped and the log lines emitted.  Total, because `adb_shell`
is. -/
def tapWorkerStep (it : TapItem) (r : SubprocResult) : (Int × Int) × List LogLine :=
  let u : Int × Int × Option String × Bool :=
    match it with
    | .triple x y l => (x, y, l, true)
    | .quad x y l b => (x, y, l, b)
  let res := adb_shell r
  ((u.1, u.2.1),
   res.2 ++ (if u.2.2.2 then [.tapAction u.1 u.2.1 u.2.2.1] else []))

/-- The consumer loop run over a queue of items, each with the device
outcome its tap produces: strict FIFO, one `adb_shell` call per item. -/
def tapWorkerRun : List (TapItem × SubprocResult) → List (Int × Int) × List LogLine
  | [] => ([], [])
  | (it, r) :: rest =>
    let s := tapWorkerStep it r
    let t := tapWorkerRun rest
    (s.1 :: t.1, s.2 ++ t.2)

/-- C5.  For every queue of tap requests and every pattern of device-I/O
outcomes — including arbitrary failures — the consumer services every
item, in submission order, and each failing tap contributes exactly one
logged error line: no device failure terminates or stalls the consumer
loop. -/
theorem C5_consumer_survives_device_failures
    (queue : List (TapItem × SubprocResult)) :
    (tapWorkerRun queue).1 = queue.map (fun q => q.1.coords)
    ∧ ((tapWorkerRun queue).2.filter LogLine.isError).length
        = (queue.filter (fun q => q.2.failing)).length := by
  induction queue with
  | nil => exact ⟨rfl, rfl⟩
  | cons q rest ih =>
    obtain ⟨it, r⟩ := q
    constructor
    · simp only [tapWorkerRun, List.map_cons]
      rw [ih.1]
      cases it <;> rfl
    · simp only [tapWorkerRun, List.filter_append, List.length_append, List.filter_cons]
      have hstep : ((tapWorkerStep it r).2.filter LogLine.isError).length
          = if r.failing then 1 else 0 := by
        cases r <;> cases it <;>
          simp [tapWorkerStep, adb_shell, SubprocResult.failing, LogLine.isError,
            List.filter_append]
      rw [hstep, ih.2]
      cases hr : r.failing <;> simp [hr, Nat.add_comm]

/-! ## Mission orchestrator (`handlers/mission_demon_mode.py`)

Time model: a discrete clock in seconds; `time.sleep(s)` advances the
clock by `s`, while screen capture, detection and tap dispatch are
instantaneous (the spec's `timeout + ε` becomes an exact
`timeout + one poll interval` bound).  Each screenshot gets a fresh
capture index, and the environment oracles are indexed by it, so the
screen may change between any two captures (in particular a verified tap
can observe the button disappearing).  Loops carry explicit fuel;
`Option.none` marks fuel exhaustion (the Python loop still running),
and every theorem supplies enough fuel for the loop to finish. -/

inductive MissionOutcome where
  | SUCCESS
  | TIMEOUT_WAITING_FOR_RUNNING
  | TIMEOUT_WAITING_FOR_DEMON
  | UI_FLOW_FAILURE
  | ABORTED_BY_USER
  deriving DecidableEq

structure MissionResult where
  outcome : MissionOutcome
  details : String
  elapsed : Nat
  phases : List (String × Nat)
  errors : List String
  deriving DecidableEq

/-- `MissionConfig` with durations in whole seconds. -/
structure MissionConfig where
  poll_running_interval : Nat := 2
  poll_buttons_interval : Nat := 1
  post_demon_wait : Nat := 75
  timeout_running : Nat := 60
  timeout_demon : Nat := 45
  overall_deadline : Nat := 240
  verify_tap : Bool := true
  max_tap_retries : Nat := 2
  deriving DecidableEq

/-- Environment oracles, indexed by capture number: the primary state the
classifier reports on the i-th screenshot, the overlays, the floating
buttons detected, and whether a `tap_label_now` call raises (with the
exception message). -/
structure MissionEnv where
  stateAt : Nat → String
  overlaysAt : Nat → List String
  buttonsAt : Nat → List String
  tapLabelFails : String → Nat → Option String

/-- The `_wait_for_state_running` loop: while the clock is before both the
phase bound `endBy` and the overall `deadline`, capture, classify, and
stop when the primary state is `RUNNING`; otherwise sleep one poll
interval.  Returns the phase outcome and the clock/capture state. -/
def waitRunningLoop (cfg : MissionConfig) (env : MissionEnv) (dryRun : Bool)
    (endBy deadline : Nat) :
    Nat → Nat → Nat → Option (Option MissionOutcome × Nat × Nat)
  | fuel, t, cap =>
    if t < endBy ∧ t < deadline then
      match fuel with
      | 0 => Option.none
      | fuel + 1 =>
        if dryRun then some (Option.none, t, cap)
        else if env.stateAt cap = "RUNNING" then some (Option.none, t, cap + 1)
        else waitRunningLoop cfg env dryRun endBy deadline fuel
          (t + cfg.poll_running_interval) (cap + 1)
    else some (some .TIMEOUT_WAITING_FOR_RUNNING, t, cap)

/-- The `_tap_floating_button_with_verify` retry loop: tap when the button
is visible, then re-detect and retry while it is still visible, up to
`max_tap_retries`; returns whether the tap was verified. -/
def tapVerifyLoop (cfg : MissionConfig) (env : MissionEnv) (dryRun : Bool)
    (buttonKey : String) :
    Nat → Nat → Nat → Nat → Option (Bool × Nat × Nat)
  | 0, _, _, _ => Option.none
  | fuel + 1, attempts, t, cap =>
    let attempts := attempts + 1
    if dryRun then some (true, t, cap)
    else
      let buttons := env.buttonsAt cap
      let cap := cap + 1
      if ¬(buttonKey ∈ buttons) ∧ cfg.verify_tap = false then some (true, t, cap)
      else if cfg.verify_tap = false then some (true, t, cap)
      else
        let buttons2 := env.buttonsAt cap
        let cap := cap + 1
        if ¬(buttonKey ∈ buttons2) then some (true, t, cap)
        else if cfg.max_tap_retries < attempts then some (false, t, cap)
        else tapVerifyLoop cfg env dryRun buttonKey fuel attempts
          (t + cfg.poll_buttons_interval) cap

/-- The `_wait_for_and_tap` polling loop: wait (under the phase bound and
the deadline) for the named floating button, then tap-and-verify; a failed
verification ends the round with `UI_FLOW_FAILURE`, a poll timeout with
`TIMEOUT_WAITING_FOR_DEMON`.  Also returns the errors appended. -/
def waitAndTapLoop (cfg : MissionConfig) (env : MissionEnv) (dryRun : Bool)
    (buttonKey : String) (endBy deadline : Nat) :
    Nat → Nat → Nat → Option (Option MissionOutcome × Nat × Nat × List String)
  | fuel, t, cap =>
    if t < endBy ∧ t < deadline then
      match fuel with
      | 0 => Option.none
      | fuel + 1 =>
        if dryRun then some (Option.none, t, cap, [])
        else
          let buttons := env.buttonsAt cap
          let cap := cap + 1
          if buttonKey ∈ buttons then
            match tapVerifyLoop cfg env dryRun buttonKey (fuel + 1) 0 t cap with
            | Option.none => Option.none
            | some (ok, t2, cap2) =>
              if ok then some (Option.none, t2, cap2, [])
              else some (some .UI_FLOW_FAILURE, t2, cap2,
                ["Verify failed for " ++ buttonKey])
          else waitAndTapLoop cfg env dryRun buttonKey endBy deadline fuel
            (t + cfg.poll_buttons_interval) cap
    else some (some .TIMEOUT_WAITING_FOR_DEMON, t, cap, [])

/-- The `END_GAME_SEQUENCE` phase body: open the menu when the
`MENU_OPEN` overlay is absent, then best-effort End Round → Yes → Retry
taps, each failure caught and recorded as a non-fatal error. -/
def endGameSeq (env : MissionEnv) (dryRun : Bool) (t cap : Nat) :
    Nat × Nat × List String :=
  if dryRun then (t, cap, [])
  else
    let ovl := env.overlaysAt cap
    let cap := cap + 1
    let t := if "MENU_OPEN" ∈ ovl then t else t + 1
    let e1 := (env.tapLabelFails "overlays.end_round" cap).map
      (fun m => "Failed to tap End Round: " ++ m)
    let cap := cap + 1
    let t := t + 1
    let cap := cap + 1
    let e2 := (env.tapLabelFails "buttons.yes:end_round" cap).map
      (fun m => "Confirm Yes not visible: " ++ m)
    let cap := cap + 1
    let t := t + 1
    let cap := cap + 1
    let e3 := (env.tapLabelFails "buttons.retry:game_over" cap).map
      (fun m => "Retry button not visible: " ++ m)
    let cap := cap + 1
    (t, cap, e1.toList ++ e2.toList ++ e3.toList)

/-- `run_demon_mode_strategy`: one bounded round,
`WAIT_RUNNING → WAIT_TAP_DEMON → POST_DEMON_WAIT → END_GAME_SEQUENCE`,
each phase's wall-clock duration recorded in order, early phase outcomes
short-circuiting the rest. -/
def run_demon_mode_strategy (cfg : MissionConfig) (env : MissionEnv)
    (dryRun : Bool) (fuel : Nat) : Option MissionResult :=
  let deadline := cfg.overall_deadline
  match waitRunningLoop cfg env dryRun cfg.timeout_running deadline fuel 0 0 with
  | Option.none => Option.none
  | some (outcome1, t1, cap1) =>
    let phases1 := [("WAIT_RUNNING", t1)]
    match outcome1 with
    | some oc =>
      some { outcome := oc
             details := "RUNNING state not reached within timeout"
             elapsed := t1
             phases := phases1
             errors := [] }
    | Option.none =>
      match waitAndTapLoop cfg env dryRun "floating_buttons.demon_mode"
          (t1 + cfg.timeout_demon) deadline fuel t1 cap1 with
      | Option.none => Option.none
      | some (outcome2, t2, cap2, errs2) =>
        let phases2 := phases1 ++ [("WAIT_TAP_DEMON", t2 - t1)]
        match outcome2 with
        | some oc =>
          some { outcome := oc
                 details := "Demon Mode button not available (or verify failed)"
                 elapsed := t2
                 phases := phases2
                 errors := errs2 }
        | Option.none =>
          let t3 := if dryRun then t2 else t2 + cfg.post_demon_wait
          let phases3 := phases2 ++ [("POST_DEMON_WAIT", t3 - t2)]
          let r := endGameSeq env dryRun t3 cap2
          let phases4 := phases3 ++ [("END_GAME_SEQUENCE", r.1 - t3)]
          some { outcome := .SUCCESS
                 details := "Round completed"
                 elapsed := r.1
                 phases := phases4
                 errors := errs2 ++ r.2.2 }

structure CampaignResult where
  runs : Nat
  successes : Nat
  timeouts_running : Nat
  timeouts_demon : Nat
  ui_failures : Nat
  aborted : Bool
  total_elapsed : Nat
  last_result : Option MissionResult
  progress : Option PyVal

/-- The `run_demon_mode_campaign` loop, parametrised by the per-round
strategy behaviour (`strategy i` is the `MissionResult` the round run
after `i` completed rounds produces — the stub of
`run_demon_mode_strategy` under the environment at that point).  Stop
conditions checked in source order: max duration, max runs, stopfile
(before the round and again after the inter-round pause), aborted round,
the optional `until(progress)` predicate. -/
def campaignLoop (strategy : Nat → MissionResult)
    (maxRuns : Option Nat) (maxDuration : Option Nat) (sleepBetween : Nat)
    (stopfile : Option (Nat → Bool))
    (progressDetector : Option (Nat → PyVal)) (untilPred : Option (PyVal → Bool)) :
    Nat → Nat → Nat → Nat → Nat → Nat → Nat →
    Option MissionResult → Option PyVal → Option CampaignResult
  | fuel, t, runs, succ, toRun, toDemon, uiFail, lastR, lastP =>
    let finish (aborted : Bool) (t : Nat) (lastR : Option MissionResult)
        (lastP : Option PyVal) : CampaignResult :=
      { runs := runs, successes := succ, timeouts_running := toRun
        timeouts_demon := toDemon, ui_failures := uiFail, aborted := aborted
        total_elapsed := t, last_result := lastR, progress := lastP }
    if maxDuration.any (fun md => decide (md ≤ t))
    then some (finish false t lastR lastP)
    else if maxRuns.any (fun mr => decide (mr ≤ runs))
    then some (finish false t lastR lastP)
    else if stopfile.any (fun sf => sf t)
    then some (finish false t lastR lastP)
    else
      match fuel with
      | 0 => Option.none
      | fuel + 1 =>
        let r := strategy runs
        let t := t + r.elapsed
        let runs' := runs + 1
        let succ' := if r.outcome = .SUCCESS then succ + 1 else succ
        let toRun' := if r.outcome = .TIMEOUT_WAITING_FOR_RUNNING then toRun + 1 else toRun
        let toDemon' := if r.outcome = .TIMEOUT_WAITING_FOR_DEMON then toDemon + 1 else toDemon
        let uiFail' := if r.outcome = .UI_FLOW_FAILURE then uiFail + 1 else uiFail
        if r.outcome = .ABORTED_BY_USER then
          some { runs := runs', successes := succ', timeouts_running := toRun'
                 timeouts_demon := toDemon', ui_failures := uiFail', aborted := true
                 total_elapsed := t, last_result := some r, progress := lastP }
        else
          let pr := match progressDetector with
            | some pd => some (pd t)
            | Option.none => lastP
          let stopUntil := match progressDetector, untilPred, pr with
            | some _, some up, some p => up p
            | _, _, _ => false
          if stopUntil then
            some { runs := runs', successes := succ', timeouts_running := toRun'
                   timeouts_demon := toDemon', ui_failures := uiFail', aborted := false
                   total_elapsed := t, last_result := some r, progress := pr }
          else
            let t := t + sleepBetween
            if stopfile.any (fun sf => sf t) then
              some { runs := runs', successes := succ', timeouts_running := toRun'
                     timeouts_demon := toDemon', ui_failures := uiFail', aborted := false
                     total_elapsed := t, last_result := some r, progress := pr }
            else
              campaignLoop strategy maxRuns maxDuration sleepBetween stopfile
                progressDetector untilPred fuel t runs' succ' toRun' toDemon' uiFail'
                (some r) pr

/-- `run_demon_mode_campaign` from the initial state. -/
def run_demon_mode_campaign (strategy : Nat → MissionResult)
    (maxRuns : Option Nat) (maxDuration : Option Nat) (sleepBetween : Nat)
    (stopfile : Option (Nat → Bool))
    (progressDetector : Option (Nat → PyVal)) (untilPred : Option (PyVal → Bool))
    (fuel : Nat) : Option CampaignResult :=
  campaignLoop strategy maxRuns maxDuration sleepBetween stopfile
    progressDetector untilPred fuel 0 0 0 0 0 0 Option.none Option.none

/-- When the classifier never reports `RUNNING`, the wait loop returns
the timeout outcome, and the clock either never moved (bound already
expired) or stays below `endBy` plus one poll interval. -/
theorem waitRunningLoop_timeout (cfg : MissionConfig) (env : MissionEnv)
    (endBy deadline : Nat)
    (hnr : ∀ i, env.stateAt i ≠ "RUNNING")
    (hpoll : 1 ≤ cfg.poll_running_interval) :
    ∀ (fuel t cap : Nat), endBy ≤ t + fuel →
      ∃ t2 cap2, waitRunningLoop cfg env false endBy deadline fuel t cap
        = some (some .TIMEOUT_WAITING_FOR_RUNNING, t2, cap2)
        ∧ (t2 = t ∨ (t ≤ t2 ∧ t2 < endBy + cfg.poll_running_interval)) := by
  intro fuel
  induction fuel with
  | zero =>
    intro t cap hf
    refine ⟨t, cap, ?_, Or.inl rfl⟩
    rw [waitRunningLoop]
    have : ¬(t < endBy ∧ t < deadline) := by omega
    simp [this]
  | succ fuel ih =>
    intro t cap hf
    by_cases hcond : t < endBy ∧ t < deadline
    · have hstep := hnr cap
      obtain ⟨t2, cap2, heq, hb⟩ :=
        ih (t + cfg.poll_running_interval) (cap + 1) (by omega)
      refine ⟨t2, cap2, ?_, ?_⟩
      · rw [waitRunningLoop]
        simp [hcond, hstep, heq]
      · rcases hb with rfl | ⟨h1, h2⟩
        · exact Or.inr ⟨by omega, by omega⟩
        · exact Or.inr ⟨by omega, h2⟩
    · refine ⟨t, cap, ?_, Or.inl rfl⟩
      rw [waitRunningLoop]
      simp [hcond]

/-- C6.  If the state classifier never reports the primary state
`RUNNING`, `run_demon_mode_strategy` returns a `MissionResult` with
outcome `TIMEOUT_WAITING_FOR_RUNNING` within `timeout_running` plus one
poll interval, and its per-phase durations contain only the
`WAIT_RUNNING` phase — no later phase is entered or recorded. -/
theorem C6_never_running_times_out
    (cfg : MissionConfig) (env : MissionEnv) (fuel : Nat)
    (hnr : ∀ i, env.stateAt i ≠ "RUNNING")
    (hpoll : 1 ≤ cfg.poll_running_interval)
    (hfuel : cfg.timeout_running ≤ fuel) :
    ∃ r, run_demon_mode_strategy cfg env false fuel = some r
      ∧ r.outcome = .TIMEOUT_WAITING_FOR_RUNNING
      ∧ r.elapsed ≤ cfg.timeout_running + cfg.poll_running_interval
      ∧ r.phases = [("WAIT_RUNNING", r.elapsed)] := by
  obtain ⟨t2, cap2, heq, hb⟩ :=
    waitRunningLoop_timeout cfg env cfg.timeout_running cfg.overall_deadline
      hnr hpoll fuel 0 0 (by omega)
  refine ⟨{ outcome := .TIMEOUT_WAITING_FOR_RUNNING
            details := "RUNNING state not reached within timeout"
            elapsed := t2
            phases := [("WAIT_RUNNING", t2)]
            errors := [] }, ?_, rfl, ?_, rfl⟩
  · simp [run_demon_mode_strategy, heq]
  · rcases hb with rfl | ⟨_, h2⟩
    · simp
    · have hx : t2 ≤ cfg.timeout_running + cfg.poll_running_interval := by omega
      simpa using hx

/-- Stub environment for the C6 witness: the classifier always reports
`UNKNOWN`, no buttons, no overlays, label taps succeed. -/
def c6Env : MissionEnv :=
  { stateAt := fun _ => "UNKNOWN"
    overlaysAt := fun _ => []
    buttonsAt := fun _ => []
    tapLabelFails := fun _ _ => Option.none }

/-- Witness for C6 on the default config and the never-running stub. -/
theorem C6_witness :
    ∃ r, run_demon_mode_strategy {} c6Env false 60 = some r
      ∧ r.outcome = .TIMEOUT_WAITING_FOR_RUNNING
      ∧ r.elapsed ≤ MissionConfig.timeout_running {} + MissionConfig.poll_running_interval {}
      ∧ r.phases = [("WAIT_RUNNING", r.elapsed)] :=
  C6_never_running_times_out {} c6Env 60
    (fun i => by simp [c6Env]) (by decide) (by decide)

/-- Rounds that only ever time out leave the success counter untouched
and the campaign stops exactly at the run bound. -/
theorem campaignLoop_timeouts (strategy : Nat → MissionResult)
    (m sleepBetween : Nat)
    (hto : ∀ i, (strategy i).outcome = .TIMEOUT_WAITING_FOR_RUNNING
              ∨ (strategy i).outcome = .TIMEOUT_WAITING_FOR_DEMON) :
    ∀ (fuel runs succ toRun toDemon uiFail t : Nat)
      (lastR : Option MissionResult) (lastP : Option PyVal),
      runs ≤ m → m ≤ runs + fuel →
      ∃ res, campaignLoop strategy (some m) Option.none sleepBetween Option.none
          Option.none Option.none fuel t runs succ toRun toDemon uiFail lastR lastP
        = some res
        ∧ res.runs = m ∧ res.successes = succ := by
  intro fuel
  induction fuel with
  | zero =>
    intro runs succ toRun toDemon uiFail t lastR lastP hle hge
    have hrm : runs = m := by omega
    have hmr : m ≤ runs := by omega
    refine ⟨{ runs := runs, successes := succ, timeouts_running := toRun
              timeouts_demon := toDemon, ui_failures := uiFail, aborted := false
              total_elapsed := t, last_result := lastR, progress := lastP },
            ?_, hrm, rfl⟩
    rw [campaignLoop]
    simp [hmr]
  | succ fuel ih =>
    intro runs succ toRun toDemon uiFail t lastR lastP hle hge
    by_cases hrm : m ≤ runs
    · have hr : runs = m := by omega
      refine ⟨{ runs := runs, successes := succ, timeouts_running := toRun
                timeouts_demon := toDemon, ui_failures := uiFail, aborted := false
                total_elapsed := t, last_result := lastR, progress := lastP },
              ?_, hr, rfl⟩
      rw [campaignLoop]
      simp [hrm]
    · have hout := hto runs
      have hns : (strategy runs).outcome ≠ .SUCCESS := by
        rcases hout with h | h <;> simp [h]
      have hna : (strategy runs).outcome ≠ .ABORTED_BY_USER := by
        rcases hout with h | h <;> simp [h]
      obtain ⟨res, heq, hr, hs⟩ :=
        ih (runs + 1) succ
          (if (strategy runs).outcome = .TIMEOUT_WAITING_FOR_RUNNING then toRun + 1 else toRun)
          (if (strategy runs).outcome = .TIMEOUT_WAITING_FOR_DEMON then toDemon + 1 else toDemon)
          (if (strategy runs).outcome = .UI_FLOW_FAILURE then uiFail + 1 else uiFail)
          (t + (strategy runs).elapsed + sleepBetween) (some (strategy runs)) lastP
          (by omega) (by omega)
      refine ⟨res, ?_, hr, hs⟩
      rw [campaignLoop]
      have hmr2 : decide (m ≤ runs) = false := by simp [hrm]
      simp [Option.any_some, Option.any_none, hmr2, hns, hna, heq]

/-- C7.  A campaign with `max_runs = 3` whose every round ends with a
timeout outcome (never `SUCCESS`, never `ABORTED_BY_USER`) executes
exactly 3 rounds and reports `runs = 3`, `successes = 0`. -/
theorem C7_three_timeout_rounds
    (strategy : Nat → MissionResult) (sleepBetween fuel : Nat)
    (hto : ∀ i, (strategy i).outcome = .TIMEOUT_WAITING_FOR_RUNNING
              ∨ (strategy i).outcome = .TIMEOUT_WAITING_FOR_DEMON)
    (hfuel : 3 ≤ fuel) :
    ∃ res, run_demon_mode_campaign strategy (some 3) Option.none sleepBetween
        Option.none Option.none Option.none fuel = some res
      ∧ res.runs = 3 ∧ res.successes = 0 :=
  campaignLoop_timeouts strategy 3 sleepBetween hto fuel 0 0 0 0 0 0
    Option.none Option.none (by omega) (by omega)

/-- Witness for C7: a strategy stub that always times out waiting for
`RUNNING`, three rounds, zero successes. -/
theorem C7_witness :
    ∃ res, run_demon_mode_campaign
        (fun _ => { outcome := .TIMEOUT_WAITING_FOR_RUNNING
                    details := "", elapsed := 62, phases := [], errors := [] })
        (some 3) Option.none 2 Option.none Option.none Option.none 3 = some res
      ∧ res.runs = 3 ∧ res.successes = 0 :=
  C7_three_timeout_rounds
    (fun _ => { outcome := .TIMEOUT_WAITING_FOR_RUNNING
                details := "", elapsed := 62, phases := [], errors := [] })
    2 3 (fun i => Or.inl rfl) (by decide)

end Tower
